import Mathlib

/-!
Verification development for the obligation health / risk-aggregation engine
(`formatObligation` and its helpers).

Monetary quantities in the source are `bignumber.js` values: arbitrary-precision
decimals extended with the IEEE-style special values `NaN`, `Infinity` and
`-Infinity` (e.g. `x.dividedBy(0)` yields a signed infinity for `x ≠ 0` and
`NaN` for `x = 0`; `new BigNumber(undefined)` yields `NaN`).  We embed such a
value as `BN`: either a finite rational, a signed infinity, or `NaN`.  Finite
decimal arithmetic is modelled exactly over `ℚ`.  Quantities that provably stay
finite (everything on the deposit side) are carried directly as `ℚ`.
-/

namespace Solend

/-- A `bignumber.js` value: `NaN`, a signed infinity (`inf true` is `+∞`,
`inf false` is `-∞`), or a finite decimal modelled as a rational. -/
inductive BN where
  | nan : BN
  | inf : Bool → BN
  | fin : ℚ → BN
deriving DecidableEq

namespace BN

/-- `BigNumber.negated`. -/
def neg : BN → BN
  | nan => nan
  | inf s => inf !s
  | fin q => fin (-q)

/-- `BigNumber.plus`: `NaN` absorbs; infinities of opposite sign give `NaN`. -/
def plus : BN → BN → BN
  | nan, _ => nan
  | _, nan => nan
  | inf s, inf t => if s = t then inf s else nan
  | inf s, fin _ => inf s
  | fin _, inf t => inf t
  | fin p, fin q => fin (p + q)

/-- `BigNumber.minus`. -/
def minus (a b : BN) : BN := a.plus b.neg

/-- `BigNumber.times`: `NaN` absorbs; `∞ × 0 = NaN`; signs multiply. -/
def times : BN → BN → BN
  | nan, _ => nan
  | _, nan => nan
  | inf s, inf t => inf (s == t)
  | inf s, fin q => if q = 0 then nan else inf (s == decide (0 < q))
  | fin q, inf s => if q = 0 then nan else inf (s == decide (0 < q))
  | fin p, fin q => fin (p * q)

/-- `BigNumber.dividedBy`: `NaN` absorbs; `∞/∞ = NaN`; a nonzero finite value
divided by zero is a signed infinity and `0/0 = NaN`; finite-by-finite division
is exact rational division. -/
def div : BN → BN → BN
  | nan, _ => nan
  | _, nan => nan
  | inf _, inf _ => nan
  | inf s, fin _ => inf s
  | fin _, inf _ => fin 0
  | fin p, fin q =>
      if q = 0 then (if p = 0 then nan else inf (decide (0 < p))) else fin (p / q)

/-- `BigNumber.isGreaterThanOrEqualTo`: any comparison with `NaN` is false. -/
def gte : BN → BN → Bool
  | nan, _ => false
  | _, nan => false
  | inf true, _ => true
  | inf false, inf false => true
  | inf false, _ => false
  | fin _, inf true => false
  | fin _, inf false => true
  | fin p, fin q => decide (q ≤ p)

end BN

/-- `new BigNumber(x)` on an optional numeric field: an absent field (JS
`undefined`) converts to `NaN`. -/
def bnOfOpt : Option ℚ → BN
  | none => BN.nan
  | some q => BN.fin q

/-- A reserve record of the pool (`pool.reserves` entries), with the fields
`formatObligation` reads.  Optional fields (`emaPrice`, `minPrice`,
`borrowWeight`) may be absent. -/
structure Reserve where
  address : String
  symbol : String
  decimals : ℕ
  price : ℚ
  emaPrice : Option ℚ
  minPrice : Option ℚ
  cTokenExchangeRate : ℚ
  cumulativeBorrowRate : ℚ
  loanToValueRatio : ℚ
  liquidationThreshold : ℚ
  borrowWeight : Option ℚ
deriving DecidableEq

/-- Modelled from the spec: the `U64_MAX` sentinel imported from
`classes/constants` (a module outside the sources under verification).  The
spec describes it as the "maximum representable" / "max representable integer"
risk weight, i.e. the largest unsigned 64-bit integer. -/
def U64_MAX : ℚ := 2 ^ 64 - 1

/-- Modelled from the spec: the reserve's conservative lower price bound as
read by `formatObligation`.  The pool's reserve records are built outside the
sources under verification; per the spec the accumulator "falls back to
`reserve.price` if no minPrice is configured". -/
def Reserve.minPriceEff (r : Reserve) : ℚ := r.minPrice.getD r.price

/-- `reserve.emaPrice ? BigNumber.max(reserve.emaPrice, reserve.price) :
reserve.price` (source lines 68-70). -/
def Reserve.maxPriceEff (r : Reserve) : ℚ :=
  match r.emaPrice with
  | some ema => max ema r.price
  | none => r.price

/-- A deposit position of the obligation (raw collateral-share units). -/
structure DepositPosition where
  depositReserve : String
  depositedAmount : ℕ
deriving DecidableEq

/-- A borrow position of the obligation (wad-scaled raw amounts). -/
structure BorrowPosition where
  borrowReserve : String
  borrowedAmountWads : ℕ
  cumulativeBorrowRateWads : ℕ
deriving DecidableEq

/-- The decoded obligation account (`obligation.info`). -/
structure Obligation where
  lendingMarket : String
  deposits : List DepositPosition
  borrows : List BorrowPosition
deriving DecidableEq

/-- The `{ pubkey, info }` bundle passed to `formatObligation`. -/
structure ObligationBundle where
  pubkey : String
  info : Obligation
deriving DecidableEq

/-- The pool (reserve set). -/
structure Pool where
  reserves : List Reserve
deriving DecidableEq

/-- The per-deposit record emitted into the `deposits` array. -/
structure DepositRecord where
  liquidationThreshold : ℚ
  loanToValueRatio : ℚ
  symbol : String
  price : ℚ
  reserveAddress : String
  amount : ℚ
  amountUsd : ℚ
deriving DecidableEq

/-- The per-borrow record emitted into the `borrows` array. -/
structure BorrowRecord where
  liquidationThreshold : ℚ
  loanToValueRatio : ℚ
  symbol : String
  price : ℚ
  reserveAddress : String
  amount : BN
  amountUsd : BN
  weightedAmountUsd : BN
deriving DecidableEq

/-- Result of processing one non-zero deposit: the emitted record together
with the two accumulator contributions made inside the `map` callback. -/
structure DepositResult where
  record : DepositRecord
  minPriceSupplyContrib : ℚ
  minPriceBorrowLimitContrib : ℚ
deriving DecidableEq

/-- Result of processing one non-zero borrow: the emitted record together with
the `maxPriceUserTotalWeightedBorrow` contribution. -/
structure BorrowResult where
  record : BorrowRecord
  maxPriceWeightedContrib : BN
deriving DecidableEq

/-- `pool.reserves.find((r) => r.address === reserveAddress)`. -/
def findReserve (pool : Pool) (address : String) : Option Reserve :=
  pool.reserves.find? (fun r => r.address == address)

/-- The body of the deposit `map` callback (source lines 21-50).  The deposit
side never leaves the finite fragment, so it is carried over `ℚ`:
`amount = depositedAmount × 10^(-decimals) × cTokenExchangeRate`,
`amountUsd = amount × price`, plus the two conservative accumulators. -/
def depositEntry (pool : Pool) (d : DepositPosition) : Except String DepositResult :=
  match findReserve pool d.depositReserve with
  | none => .error "Deposit in obligation does not exist in the pool"
  | some reserve =>
      let amount : ℚ :=
        (d.depositedAmount : ℚ) / 10 ^ reserve.decimals * reserve.cTokenExchangeRate
      let amountUsd : ℚ := amount * reserve.price
      .ok { record :=
              { liquidationThreshold := reserve.liquidationThreshold
                loanToValueRatio := reserve.loanToValueRatio
                symbol := reserve.symbol
                price := reserve.price
                reserveAddress := d.depositReserve
                amount := amount
                amountUsd := amountUsd }
            minPriceSupplyContrib := amount * reserve.minPriceEff
            minPriceBorrowLimitContrib :=
              amount * reserve.minPriceEff * reserve.loanToValueRatio }

/-- The body of the borrow `map` callback (source lines 54-89):
`amount = borrowedAmountWads × 10^(-18-decimals) × cumulativeBorrowRate
          ÷ (cumulativeBorrowRateWads × 10^(-18))` (a `BN` division, so a zero
snapshot index yields an infinity or `NaN`), `amountUsd = amount × price`, the
conservative accumulator contribution using `borrowWeight` with the `U64_MAX`
sentinel fallback, and `weightedAmountUsd = new BigNumber(borrowWeight) ×
amountUsd` (which is `NaN` when `borrowWeight` is absent). -/
def borrowEntry (pool : Pool) (b : BorrowPosition) : Except String BorrowResult :=
  match findReserve pool b.borrowReserve with
  | none => .error "Borrow in obligation does not exist in the pool"
  | some reserve =>
      let amount : BN :=
        BN.div
          (BN.fin ((b.borrowedAmountWads : ℚ) / 10 ^ (18 + reserve.decimals) *
            reserve.cumulativeBorrowRate))
          (BN.fin ((b.cumulativeBorrowRateWads : ℚ) / 10 ^ 18))
      let amountUsd : BN := amount.times (BN.fin reserve.price)
      .ok { record :=
              { liquidationThreshold := reserve.liquidationThreshold
                loanToValueRatio := reserve.loanToValueRatio
                symbol := reserve.symbol
                price := reserve.price
                reserveAddress := b.borrowReserve
                amount := amount
                amountUsd := amountUsd
                weightedAmountUsd := (bnOfOpt reserve.borrowWeight).times amountUsd }
            maxPriceWeightedContrib :=
              (amount.times (BN.fin reserve.maxPriceEff)).times
                (BN.fin (reserve.borrowWeight.getD U64_MAX)) }

/-- `deposits.reduce((acc, d) => acc.plus(d.amountUsd), new BigNumber(0))`. -/
def totalSupplyValueOf (ds : List DepositRecord) : ℚ :=
  ds.foldl (fun acc d => acc + d.amountUsd) 0

/-- `borrows.reduce((acc, b) => acc.plus(b.amountUsd), new BigNumber(0))`. -/
def totalBorrowValueOf (bs : List BorrowRecord) : BN :=
  bs.foldl (fun acc b => acc.plus b.amountUsd) (BN.fin 0)

/-- `borrows.reduce((acc, b) => acc.plus(b.weightedAmountUsd), 0)`. -/
def weightedTotalBorrowValueOf (bs : List BorrowRecord) : BN :=
  bs.foldl (fun acc b => acc.plus b.weightedAmountUsd) (BN.fin 0)

/-- `deposits.reduce((acc, d) => d.amountUsd.times(d.loanToValueRatio).plus(acc), 0)`. -/
def borrowLimitOf (ds : List DepositRecord) : ℚ :=
  ds.foldl (fun acc d => d.amountUsd * d.loanToValueRatio + acc) 0

/-- `deposits.reduce((acc, d) => d.amountUsd.times(d.liquidationThreshold).plus(acc), 0)`. -/
def liquidationThresholdOf (ds : List DepositRecord) : ℚ :=
  ds.foldl (fun acc d => d.amountUsd * d.liquidationThreshold + acc) 0

/-- `borrowLimit.isZero() ? 0 : totalBorrowValue.dividedBy(borrowLimit)`. -/
def borrowUtilizationOf (ds : List DepositRecord) (totalBorrowValue : BN) : BN :=
  if borrowLimitOf ds = 0 then BN.fin 0
  else totalBorrowValue.div (BN.fin (borrowLimitOf ds))

/-- The returned object of `formatObligation`. -/
structure FormattedObligation where
  address : String
  positions : ℕ
  deposits : List DepositRecord
  borrows : List BorrowRecord
  poolAddress : String
  totalSupplyValue : ℚ
  totalBorrowValue : BN
  borrowLimit : ℚ
  liquidationThreshold : ℚ
  netAccountValue : BN
  liquidationThresholdFactor : ℚ
  borrowLimitFactor : ℚ
  borrowUtilization : BN
  weightedConservativeBorrowUtilization : BN
  weightedBorrowUtilization : BN
  isBorrowLimitReached : Bool
  borrowOverSupply : BN
  weightedTotalBorrowValue : BN
  minPriceUserTotalSupply : ℚ
  minPriceBorrowLimit : ℚ
  maxPriceUserTotalWeightedBorrow : BN
deriving DecidableEq

/-- Assembly of the returned object from the per-position results (source
lines 92-164).  The three closure accumulators are the left folds of the
per-position contributions, in list order, starting from `0`, exactly as the
source's `map` callbacks build them. -/
def buildReport (obligation : ObligationBundle) (depResults : List DepositResult)
    (borResults : List BorrowResult) : FormattedObligation :=
  let deposits : List DepositRecord := depResults.map DepositResult.record
  let borrows : List BorrowRecord := borResults.map BorrowResult.record
  let minPriceUserTotalSupply : ℚ :=
    depResults.foldl (fun acc r => acc + r.minPriceSupplyContrib) 0
  let minPriceBorrowLimit : ℚ :=
    depResults.foldl (fun acc r => acc + r.minPriceBorrowLimitContrib) 0
  let maxPriceUserTotalWeightedBorrow : BN :=
    borResults.foldl (fun acc r => acc.plus r.maxPriceWeightedContrib) (BN.fin 0)
  let totalSupplyValue : ℚ := totalSupplyValueOf deposits
  let totalBorrowValue : BN := totalBorrowValueOf borrows
  let weightedTotalBorrowValue : BN := weightedTotalBorrowValueOf borrows
  let borrowLimit : ℚ := borrowLimitOf deposits
  let liquidationThreshold : ℚ := liquidationThresholdOf deposits
  let netAccountValue : BN := (BN.fin totalSupplyValue).minus totalBorrowValue
  let liquidationThresholdFactor : ℚ :=
    if totalSupplyValue = 0 then 0 else liquidationThreshold / totalSupplyValue
  let borrowLimitFactor : ℚ :=
    if totalSupplyValue = 0 then 0 else borrowLimit / totalSupplyValue
  let borrowUtilization : BN := borrowUtilizationOf deposits totalBorrowValue
  let weightedBorrowUtilization : BN :=
    if minPriceBorrowLimit = 0 then BN.fin 0
    else weightedTotalBorrowValue.div (BN.fin borrowLimit)
  let isBorrowLimitReached : Bool := borrowUtilization.gte (BN.fin 1)
  let borrowOverSupply : BN :=
    if totalSupplyValue = 0 then BN.fin 0
    else totalBorrowValue.div (BN.fin totalSupplyValue)
  let positions : ℕ :=
    (obligation.info.deposits.filter (fun d => d.depositedAmount != 0)).length +
    (obligation.info.borrows.filter (fun b => b.borrowedAmountWads != 0)).length
  let weightedConservativeBorrowUtilization : BN :=
    if minPriceBorrowLimit = 0 then BN.fin 0
    else maxPriceUserTotalWeightedBorrow.div (BN.fin minPriceBorrowLimit)
  { address := obligation.pubkey
    positions := positions
    deposits := deposits
    borrows := borrows
    poolAddress := obligation.info.lendingMarket
    totalSupplyValue := totalSupplyValue
    totalBorrowValue := totalBorrowValue
    borrowLimit := borrowLimit
    liquidationThreshold := liquidationThreshold
    netAccountValue := netAccountValue
    liquidationThresholdFactor := liquidationThresholdFactor
    borrowLimitFactor := borrowLimitFactor
    borrowUtilization := borrowUtilization
    weightedConservativeBorrowUtilization := weightedConservativeBorrowUtilization
    weightedBorrowUtilization := weightedBorrowUtilization
    isBorrowLimitReached := isBorrowLimitReached
    borrowOverSupply := borrowOverSupply
    weightedTotalBorrowValue := weightedTotalBorrowValue
    minPriceUserTotalSupply := minPriceUserTotalSupply
    minPriceBorrowLimit := minPriceBorrowLimit
    maxPriceUserTotalWeightedBorrow := maxPriceUserTotalWeightedBorrow }

/-- `formatObligation`: filter out zero-amount positions, resolve and value
each remaining position (throwing if its reserve is missing from the pool),
then assemble the report. -/
def formatObligation (obligation : ObligationBundle) (pool : Pool) :
    Except String FormattedObligation := do
  let depResults ←
    (obligation.info.deposits.filter (fun d => d.depositedAmount != 0)).mapM
      (depositEntry pool)
  let borResults ←
    (obligation.info.borrows.filter (fun b => b.borrowedAmountWads != 0)).mapM
      (borrowEntry pool)
  return buildReport obligation depResults borResults

/-! ### General lemmas about `Except` and `List.mapM` -/

theorem exceptBind_ok {ε α β : Type} {x : Except ε α} {f : α → Except ε β} {b : β} :
    (x >>= f) = .ok b ↔ ∃ a, x = .ok a ∧ f a = .ok b := by
  cases x <;> simp [Bind.bind, Except.bind]

theorem except_error_of_not_ok {ε α : Type} {x : Except ε α}
    (h : ∀ b, x ≠ .ok b) : ∃ e, x = .error e := by
  cases x with
  | error e => exact ⟨e, rfl⟩
  | ok b => exact absurd rfl (h b)

theorem mapM_cons_ok {ε α β : Type} {f : α → Except ε β} {a : α} {t : List α} {ys : List β} :
    (a :: t).mapM f = .ok ys ↔
      ∃ y zs, f a = .ok y ∧ t.mapM f = .ok zs ∧ ys = y :: zs := by
  rw [List.mapM_cons]
  constructor
  · intro h
    obtain ⟨y, hy, h⟩ := exceptBind_ok.mp h
    obtain ⟨zs, hzs, h⟩ := exceptBind_ok.mp h
    cases h
    exact ⟨y, zs, hy, hzs, rfl⟩
  · rintro ⟨y, zs, hy, hzs, rfl⟩
    rw [hy, hzs]
    rfl

theorem mapM_ok_forall {ε α β : Type} {f : α → Except ε β} :
    ∀ {l : List α} {ys : List β}, l.mapM f = .ok ys → ∀ x ∈ l, ∃ y, f x = .ok y := by
  intro l
  induction l with
  | nil => intro ys _ x hx; cases hx
  | cons a t ih =>
    intro ys h x hx
    obtain ⟨y, zs, hy, hzs, rfl⟩ := mapM_cons_ok.mp h
    rcases List.mem_cons.mp hx with rfl | hx
    · exact ⟨y, hy⟩
    · exact ih hzs x hx

theorem mapM_ok_mem {ε α β : Type} {f : α → Except ε β} :
    ∀ {l : List α} {ys : List β}, l.mapM f = .ok ys → ∀ y ∈ ys, ∃ x ∈ l, f x = .ok y := by
  intro l
  induction l with
  | nil =>
    intro ys h y hy
    cases h
    cases hy
  | cons a t ih =>
    intro ys h y hy
    obtain ⟨z, zs, hz, hzs, rfl⟩ := mapM_cons_ok.mp h
    rcases List.mem_cons.mp hy with rfl | hy
    · exact ⟨a, List.mem_cons_self a t, hz⟩
    · obtain ⟨x, hx, hfx⟩ := ih hzs y hy
      exact ⟨x, List.mem_cons_of_mem a hx, hfx⟩

theorem mapM_ok_of_forall {ε α β : Type} {f : α → Except ε β} :
    ∀ {l : List α}, (∀ x ∈ l, ∃ y, f x = .ok y) → ∃ ys, l.mapM f = .ok ys := by
  intro l
  induction l with
  | nil => exact fun _ => ⟨[], rfl⟩
  | cons a t ih =>
    intro h
    obtain ⟨y, hy⟩ := h a (List.mem_cons_self a t)
    obtain ⟨ys, hys⟩ := ih (fun x hx => h x (List.mem_cons_of_mem a hx))
    exact ⟨y :: ys, mapM_cons_ok.mpr ⟨y, ys, hy, hys, rfl⟩⟩

/-! ### Inversion of `formatObligation` and projections of `buildReport` -/

theorem formatObligation_ok_iff {ob : ObligationBundle} {pool : Pool}
    {res : FormattedObligation} :
    formatObligation ob pool = .ok res ↔
      ∃ dr br,
        (ob.info.deposits.filter (fun d => d.depositedAmount != 0)).mapM
          (depositEntry pool) = .ok dr ∧
        (ob.info.borrows.filter (fun b => b.borrowedAmountWads != 0)).mapM
          (borrowEntry pool) = .ok br ∧
        res = buildReport ob dr br := by
  unfold formatObligation
  constructor
  · intro h
    obtain ⟨dr, hdr, h⟩ := exceptBind_ok.mp h
    obtain ⟨br, hbr, h⟩ := exceptBind_ok.mp h
    cases h
    exact ⟨dr, br, hdr, hbr, rfl⟩
  · rintro ⟨dr, br, hdr, hbr, rfl⟩
    rw [hdr, hbr]
    rfl

/-! ### Folds as sums -/

theorem foldl_add_right {α : Type} (f : α → ℚ) :
    ∀ (l : List α) (c : ℚ), l.foldl (fun acc x => acc + f x) c = c + (l.map f).sum := by
  intro l
  induction l with
  | nil => intro c; simp
  | cons a t ih => intro c; simp [ih, add_assoc]

theorem foldl_add_left {α : Type} (f : α → ℚ) :
    ∀ (l : List α) (c : ℚ), l.foldl (fun acc x => f x + acc) c = c + (l.map f).sum := by
  intro l
  induction l with
  | nil => intro c; simp
  | cons a t ih => intro c; simp [ih]; ring

theorem totalSupplyValueOf_eq (ds : List DepositRecord) :
    totalSupplyValueOf ds = (ds.map DepositRecord.amountUsd).sum := by
  simpa using foldl_add_right DepositRecord.amountUsd ds 0

theorem borrowLimitOf_eq (ds : List DepositRecord) :
    borrowLimitOf ds = (ds.map (fun d => d.amountUsd * d.loanToValueRatio)).sum := by
  simpa using foldl_add_left (fun d => d.amountUsd * d.loanToValueRatio) ds 0

theorem liquidationThresholdOf_eq (ds : List DepositRecord) :
    liquidationThresholdOf ds = (ds.map (fun d => d.amountUsd * d.liquidationThreshold)).sum := by
  simpa using foldl_add_left (fun d => d.amountUsd * d.liquidationThreshold) ds 0

theorem BN.div_fin_fin {p q : ℚ} (h : q ≠ 0) :
    BN.div (BN.fin p) (BN.fin q) = BN.fin (p / q) := by
  simp [BN.div, h]

theorem BN.div_fin_pos_zero {p : ℚ} (hp : 0 < p) :
    BN.div (BN.fin p) (BN.fin 0) = BN.inf true := by
  simp [BN.div, hp.ne', decide_eq_true hp]

theorem BN.nan_times (y : BN) : BN.nan.times y = BN.nan := by
  cases y <;> rfl

/-! ### C1: interest accrual rescales the snapshot by the index ratio -/

/-- C1: for every non-zero borrow position whose reserve is present in the pool
(with a non-zero snapshot index, so that the division is by a non-zero
divisor), the accrued amount equals the raw wad amount scaled by
`10^-(18+reserve.decimals)`, multiplied by `reserve.cumulativeBorrowRate` and
divided by the snapshot index scaled by `10^-18`; and when the current reserve
index is exactly twice the snapshot index, the accrued amount equals twice the
raw amount. -/
theorem accruedAmount_rescales_snapshot (pool : Pool) (b : BorrowPosition) (r : Reserve)
    (hfind : findReserve pool b.borrowReserve = some r)
    (hnz : b.borrowedAmountWads ≠ 0)
    (hsnap : b.cumulativeBorrowRateWads ≠ 0) :
    ∃ res, borrowEntry pool b = .ok res ∧
      res.record.amount =
        BN.fin ((b.borrowedAmountWads : ℚ) / 10 ^ (18 + r.decimals) *
          r.cumulativeBorrowRate / ((b.cumulativeBorrowRateWads : ℚ) / 10 ^ 18)) ∧
      (r.cumulativeBorrowRate = 2 * ((b.cumulativeBorrowRateWads : ℚ) / 10 ^ 18) →
        res.record.amount =
          BN.fin (2 * ((b.borrowedAmountWads : ℚ) / 10 ^ (18 + r.decimals)))) := by
  have hq : ((b.cumulativeBorrowRateWads : ℚ) / 10 ^ 18) ≠ 0 :=
    div_ne_zero (Nat.cast_ne_zero.mpr hsnap) (by positivity)
  unfold borrowEntry
  rw [hfind]
  refine ⟨_, rfl, ?_, ?_⟩
  · exact BN.div_fin_fin hq
  · intro h2
    rw [BN.div_fin_fin hq]
    rw [h2]
    field_simp
    ring

def w1Reserve : Reserve := ⟨"B", "B", 6, 1, none, none, 1, 2, 4/5, 17/20, some 1⟩

def w1Pool : Pool := ⟨[w1Reserve]⟩

def w1Borrow : BorrowPosition := ⟨"B", 7 * 10 ^ 24, 10 ^ 18⟩

/-- Witness for C1 at a concrete input: snapshot index 1 (raw `10^18`), current
index 2, raw amount 7, so the accrued amount is 14. -/
theorem accruedAmount_rescales_snapshot_witness :
    (findReserve w1Pool w1Borrow.borrowReserve = some w1Reserve ∧
      w1Borrow.borrowedAmountWads ≠ 0 ∧ w1Borrow.cumulativeBorrowRateWads ≠ 0) ∧
    (∃ res, borrowEntry w1Pool w1Borrow = .ok res ∧
      res.record.amount =
        BN.fin ((w1Borrow.borrowedAmountWads : ℚ) / 10 ^ (18 + w1Reserve.decimals) *
          w1Reserve.cumulativeBorrowRate /
          ((w1Borrow.cumulativeBorrowRateWads : ℚ) / 10 ^ 18)) ∧
      (w1Reserve.cumulativeBorrowRate =
          2 * ((w1Borrow.cumulativeBorrowRateWads : ℚ) / 10 ^ 18) →
        res.record.amount =
          BN.fin (2 * ((w1Borrow.borrowedAmountWads : ℚ) / 10 ^ (18 + w1Reserve.decimals))))) :=
  ⟨⟨by with_unfolding_all rfl, by decide, by decide⟩,
    accruedAmount_rescales_snapshot w1Pool w1Borrow w1Reserve
      (by with_unfolding_all rfl) (by decide) (by decide)⟩

/-! ### C2: a missing reserve aborts the whole computation -/

/-- C2: if any non-zero deposit or borrow position references a reserve address
absent from the supplied reserve set, `formatObligation` aborts with an error
(so no partial report is returned and the position is never silently
skipped). -/
theorem missing_reserve_aborts (ob : ObligationBundle) (pool : Pool)
    (h : (∃ d ∈ ob.info.deposits, d.depositedAmount ≠ 0 ∧
            ∀ r ∈ pool.reserves, r.address ≠ d.depositReserve) ∨
         (∃ b ∈ ob.info.borrows, b.borrowedAmountWads ≠ 0 ∧
            ∀ r ∈ pool.reserves, r.address ≠ b.borrowReserve)) :
    ∃ e, formatObligation ob pool = .error e := by
  apply except_error_of_not_ok
  intro res hres
  obtain ⟨dr, br, hdr, hbr, -⟩ := formatObligation_ok_iff.mp hres
  rcases h with ⟨d, hd, hdnz, habs⟩ | ⟨b, hb, hbnz, habs⟩
  · have hmem : d ∈ ob.info.deposits.filter (fun d => d.depositedAmount != 0) :=
      List.mem_filter.mpr ⟨hd, by simpa using hdnz⟩
    obtain ⟨y, hy⟩ := mapM_ok_forall hdr d hmem
    have hfind : findReserve pool d.depositReserve = none := by
      apply List.find?_eq_none.mpr
      intro r hr
      simpa using habs r hr
    rw [depositEntry, hfind] at hy
    cases hy
  · have hmem : b ∈ ob.info.borrows.filter (fun b => b.borrowedAmountWads != 0) :=
      List.mem_filter.mpr ⟨hb, by simpa using hbnz⟩
    obtain ⟨y, hy⟩ := mapM_ok_forall hbr b hmem
    have hfind : findReserve pool b.borrowReserve = none := by
      apply List.find?_eq_none.mpr
      intro r hr
      simpa using habs r hr
    rw [borrowEntry, hfind] at hy
    cases hy

def w2ob : ObligationBundle := ⟨"ob", ⟨"mkt", [⟨"X", 5⟩], []⟩⟩

def w2pool : Pool := ⟨[]⟩

/-- Witness for C2 at a concrete input: one non-zero deposit referencing
reserve "X" against an empty reserve set. -/
theorem missing_reserve_aborts_witness :
    ((∃ d ∈ w2ob.info.deposits, d.depositedAmount ≠ 0 ∧
        ∀ r ∈ w2pool.reserves, r.address ≠ d.depositReserve) ∨
     (∃ b ∈ w2ob.info.borrows, b.borrowedAmountWads ≠ 0 ∧
        ∀ r ∈ w2pool.reserves, r.address ≠ b.borrowReserve)) ∧
    ∃ e, formatObligation w2ob w2pool = .error e :=
  ⟨Or.inl ⟨⟨"X", 5⟩, by decide, by decide, by decide⟩,
    missing_reserve_aborts w2ob w2pool
      (Or.inl ⟨⟨"X", 5⟩, by decide, by decide, by decide⟩)⟩

/-! ### C3: the asymmetric denominators of `weightedBorrowUtilization` -/

/-- C3: `weightedBorrowUtilization` is `0` when the conservative accumulator
`minPriceBorrowLimit` is zero, and otherwise equals `weightedTotalBorrowValue`
divided by the nominal `borrowLimit`: the zero-check denominator and the
division denominator are different quantities. -/
theorem weightedBorrowUtilization_asymmetric (ob : ObligationBundle) (pool : Pool)
    (res : FormattedObligation) (hok : formatObligation ob pool = .ok res) :
    (res.minPriceBorrowLimit = 0 → res.weightedBorrowUtilization = BN.fin 0) ∧
    (res.minPriceBorrowLimit ≠ 0 →
      res.weightedBorrowUtilization =
        BN.div res.weightedTotalBorrowValue (BN.fin res.borrowLimit)) := by
  obtain ⟨dr, br, -, -, rfl⟩ := formatObligation_ok_iff.mp hok
  have hdef : (buildReport ob dr br).weightedBorrowUtilization =
      (if (buildReport ob dr br).minPriceBorrowLimit = 0 then BN.fin 0
       else BN.div (buildReport ob dr br).weightedTotalBorrowValue
         (BN.fin (buildReport ob dr br).borrowLimit)) := rfl
  constructor
  · intro h0
    rw [hdef, if_pos h0]
  · intro h0
    rw [hdef, if_neg h0]

def w3DepositReserve : Reserve := ⟨"A", "A", 0, 1, none, some (1/2), 1, 1, 1/2, 3/4, some 1⟩

def w3BorrowReserve : Reserve := ⟨"B", "B", 0, 1, none, none, 1, 1, 1/2, 3/4, some 2⟩

def w3Pool : Pool := ⟨[w3DepositReserve, w3BorrowReserve]⟩

def w3Ob : ObligationBundle := ⟨"ob", ⟨"mkt", [⟨"A", 4⟩], [⟨"B", 3 * 10 ^ 18, 10 ^ 18⟩]⟩⟩

def w3DepResults : List DepositResult := [⟨⟨3/4, 1/2, "A", 1, "A", 4, 4⟩, 2, 1⟩]

def w3BorResults : List BorrowResult :=
  [⟨⟨3/4, 1/2, "B", 1, "B", BN.fin 3, BN.fin 3, BN.fin 6⟩, BN.fin 6⟩]

def w3Res : FormattedObligation := buildReport w3Ob w3DepResults w3BorResults

/-- Witness for C3 at a concrete input where the two denominators really
differ: `minPriceBorrowLimit = 1` but `borrowLimit = 2`, and the division uses
`borrowLimit` (giving `6 / 2 = 3`, not `6 / 1 = 6`). -/
theorem weightedBorrowUtilization_asymmetric_witness :
    formatObligation w3Ob w3Pool = .ok w3Res ∧
    ((w3Res.minPriceBorrowLimit = 0 → w3Res.weightedBorrowUtilization = BN.fin 0) ∧
     (w3Res.minPriceBorrowLimit ≠ 0 →
       w3Res.weightedBorrowUtilization =
         BN.div w3Res.weightedTotalBorrowValue (BN.fin w3Res.borrowLimit))) ∧
    w3Res.minPriceBorrowLimit = 1 ∧ w3Res.borrowLimit = 2 ∧
    w3Res.weightedTotalBorrowValue = BN.fin 6 ∧
    w3Res.weightedBorrowUtilization = BN.fin 3 :=
  ⟨by with_unfolding_all rfl,
    weightedBorrowUtilization_asymmetric w3Ob w3Pool w3Res (by with_unfolding_all rfl),
    by with_unfolding_all rfl, by with_unfolding_all rfl,
    by with_unfolding_all rfl, by with_unfolding_all rfl⟩

/-! ### C7: the zero-if-denominator-zero policy and totality of aggregation -/

theorem depositEntry_ok_of_found {pool : Pool} {d : DepositPosition} {r : Reserve}
    (h : findReserve pool d.depositReserve = some r) :
    ∃ y, depositEntry pool d = .ok y := by
  rw [depositEntry, h]
  exact ⟨_, rfl⟩

theorem borrowEntry_ok_of_found {pool : Pool} {b : BorrowPosition} {r : Reserve}
    (h : findReserve pool b.borrowReserve = some r) :
    ∃ y, borrowEntry pool b = .ok y := by
  rw [borrowEntry, h]
  exact ⟨_, rfl⟩

/-- C7: whenever every non-zero position's reserve is present, the computation
succeeds (aggregation itself has no error path), and the divisions are guarded
by the zero-if-denominator-zero policy: `borrowLimit = 0` forces
`borrowUtilization = 0` regardless of `totalBorrowValue`, and
`totalSupplyValue = 0` forces `liquidationThresholdFactor`,
`borrowLimitFactor` and `borrowOverSupply` to `0`. -/
theorem zero_denominator_policy (ob : ObligationBundle) (pool : Pool)
    (hd : ∀ d ∈ ob.info.deposits, d.depositedAmount ≠ 0 →
            (findReserve pool d.depositReserve).isSome)
    (hb : ∀ b ∈ ob.info.borrows, b.borrowedAmountWads ≠ 0 →
            (findReserve pool b.borrowReserve).isSome) :
    ∃ res, formatObligation ob pool = .ok res ∧
      (res.borrowLimit = 0 → res.borrowUtilization = BN.fin 0) ∧
      (res.totalSupplyValue = 0 →
        res.liquidationThresholdFactor = 0 ∧ res.borrowLimitFactor = 0 ∧
          res.borrowOverSupply = BN.fin 0) := by
  have hdall : ∀ d ∈ ob.info.deposits.filter (fun d => d.depositedAmount != 0),
      ∃ y, depositEntry pool d = .ok y := by
    intro d hdmem
    obtain ⟨hdl, hdnz⟩ := List.mem_filter.mp hdmem
    obtain ⟨r, hr⟩ := Option.isSome_iff_exists.mp (hd d hdl (by simpa using hdnz))
    exact depositEntry_ok_of_found hr
  have hball : ∀ b ∈ ob.info.borrows.filter (fun b => b.borrowedAmountWads != 0),
      ∃ y, borrowEntry pool b = .ok y := by
    intro b hbmem
    obtain ⟨hbl, hbnz⟩ := List.mem_filter.mp hbmem
    obtain ⟨r, hr⟩ := Option.isSome_iff_exists.mp (hb b hbl (by simpa using hbnz))
    exact borrowEntry_ok_of_found hr
  obtain ⟨dr, hdr⟩ := mapM_ok_of_forall hdall
  obtain ⟨br, hbr⟩ := mapM_ok_of_forall hball
  refine ⟨buildReport ob dr br, formatObligation_ok_iff.mpr ⟨dr, br, hdr, hbr, rfl⟩, ?_, ?_⟩
  · intro h0
    have hdef : (buildReport ob dr br).borrowUtilization =
        (if (buildReport ob dr br).borrowLimit = 0 then BN.fin 0
         else BN.div (buildReport ob dr br).totalBorrowValue
           (BN.fin (buildReport ob dr br).borrowLimit)) := rfl
    rw [hdef, if_pos h0]
  · intro h0
    have hdef1 : (buildReport ob dr br).liquidationThresholdFactor =
        (if (buildReport ob dr br).totalSupplyValue = 0 then 0
         else (buildReport ob dr br).liquidationThreshold /
           (buildReport ob dr br).totalSupplyValue) := rfl
    have hdef2 : (buildReport ob dr br).borrowLimitFactor =
        (if (buildReport ob dr br).totalSupplyValue = 0 then 0
         else (buildReport ob dr br).borrowLimit /
           (buildReport ob dr br).totalSupplyValue) := rfl
    have hdef3 : (buildReport ob dr br).borrowOverSupply =
        (if (buildReport ob dr br).totalSupplyValue = 0 then BN.fin 0
         else BN.div (buildReport ob dr br).totalBorrowValue
           (BN.fin (buildReport ob dr br).totalSupplyValue)) := rfl
    exact ⟨by rw [hdef1, if_pos h0], by rw [hdef2, if_pos h0], by rw [hdef3, if_pos h0]⟩

def w7Pool : Pool := ⟨[⟨"A", "A", 0, 0, none, none, 1, 1, 1/2, 3/4, some 1⟩,
  ⟨"B", "B", 0, 1, none, none, 1, 1, 1/2, 3/4, some 1⟩]⟩

def w7Ob : ObligationBundle := ⟨"ob", ⟨"mkt", [⟨"A", 4⟩], [⟨"B", 3 * 10 ^ 18, 10 ^ 18⟩]⟩⟩

/-- Witness for C7 at a concrete input with a zero-priced deposit and a
non-zero borrow, so that both guarded denominators are actually zero. -/
theorem zero_denominator_policy_witness :
    (∀ d ∈ w7Ob.info.deposits, d.depositedAmount ≠ 0 →
        (findReserve w7Pool d.depositReserve).isSome) ∧
    (∀ b ∈ w7Ob.info.borrows, b.borrowedAmountWads ≠ 0 →
        (findReserve w7Pool b.borrowReserve).isSome) ∧
    ∃ res, formatObligation w7Ob w7Pool = .ok res ∧
      (res.borrowLimit = 0 → res.borrowUtilization = BN.fin 0) ∧
      (res.totalSupplyValue = 0 →
        res.liquidationThresholdFactor = 0 ∧ res.borrowLimitFactor = 0 ∧
          res.borrowOverSupply = BN.fin 0) :=
  ⟨by decide, by decide,
    zero_denominator_policy w7Ob w7Pool (by decide) (by decide)⟩

/-! ### C8: zero-amount positions are inert -/

/-- C8: `formatObligation` coincides with its run on the zero-filtered
obligation, so zero-amount deposits and borrows appear in no output list and
affect no accumulator, aggregate or the position count; and an obligation with
no non-zero positions yields the all-zero report with
`isBorrowLimitReached = false`. -/
theorem zero_positions_inert (a m : String) (ds : List DepositPosition)
    (bs : List BorrowPosition) (pool : Pool) :
    formatObligation ⟨a, ⟨m, ds, bs⟩⟩ pool =
      formatObligation ⟨a, ⟨m, ds.filter (fun d => d.depositedAmount != 0),
        bs.filter (fun b => b.borrowedAmountWads != 0)⟩⟩ pool ∧
    formatObligation ⟨a, ⟨m, [], []⟩⟩ pool = .ok
      { address := a, positions := 0, deposits := [], borrows := [], poolAddress := m,
        totalSupplyValue := 0, totalBorrowValue := BN.fin 0, borrowLimit := 0,
        liquidationThreshold := 0, netAccountValue := BN.fin 0,
        liquidationThresholdFactor := 0, borrowLimitFactor := 0,
        borrowUtilization := BN.fin 0, weightedConservativeBorrowUtilization := BN.fin 0,
        weightedBorrowUtilization := BN.fin 0, isBorrowLimitReached := false,
        borrowOverSupply := BN.fin 0, weightedTotalBorrowValue := BN.fin 0,
        minPriceUserTotalSupply := 0, minPriceBorrowLimit := 0,
        maxPriceUserTotalWeightedBorrow := BN.fin 0 } := by
  constructor
  · simp only [formatObligation, buildReport, List.filter_filter, Bool.and_self]
  · with_unfolding_all rfl

/-! ### C5: the conservative supply accumulator and the minPrice fallback -/

/-- C5: each non-zero deposit adds `amount × reserve.minPrice` to the
conservative supply accumulator, and a reserve without a configured `minPrice`
falls back to `reserve.price`. -/
theorem minPrice_supply_accumulator (pool : Pool) (d : DepositPosition) (r : Reserve)
    (hfind : findReserve pool d.depositReserve = some r)
    (hnz : d.depositedAmount ≠ 0) :
    ∃ res, depositEntry pool d = .ok res ∧
      res.minPriceSupplyContrib = res.record.amount * r.minPriceEff ∧
      (r.minPrice = none → res.minPriceSupplyContrib = res.record.amount * r.price) := by
  rw [depositEntry, hfind]
  refine ⟨_, rfl, rfl, ?_⟩
  intro hnone
  simp [Reserve.minPriceEff, hnone]

def w5Reserve : Reserve := ⟨"A", "A", 0, 3, none, none, 1, 1, 1/2, 3/4, some 1⟩

def w5Pool : Pool := ⟨[w5Reserve]⟩

def w5Deposit : DepositPosition := ⟨"A", 4⟩

/-- Witness for C5 at a concrete input: no `minPrice` configured, so the
accumulator contribution uses the spot price. -/
theorem minPrice_supply_accumulator_witness :
    (findReserve w5Pool w5Deposit.depositReserve = some w5Reserve ∧
      w5Deposit.depositedAmount ≠ 0 ∧ w5Reserve.minPrice = none) ∧
    ∃ res, depositEntry w5Pool w5Deposit = .ok res ∧
      res.minPriceSupplyContrib = res.record.amount * w5Reserve.minPriceEff ∧
      (w5Reserve.minPrice = none →
        res.minPriceSupplyContrib = res.record.amount * w5Reserve.price) :=
  ⟨⟨by with_unfolding_all rfl, by decide, by decide⟩,
    minPrice_supply_accumulator w5Pool w5Deposit w5Reserve
      (by with_unfolding_all rfl) (by decide)⟩

/-! ### C4: unset borrow weight — sentinel only in the conservative path -/

def c4Reserve : Reserve := ⟨"B", "B", 0, 1, none, none, 1, 1, 1/2, 3/4, none⟩

def c4Pool : Pool := ⟨[c4Reserve]⟩

def c4Ob : ObligationBundle := ⟨"ob", ⟨"mkt", [], [⟨"B", 10 * 10 ^ 18, 10 ^ 18⟩]⟩⟩

/-- C4 counterexample: with a single borrow on a reserve with no configured
`borrowWeight`, `weightedTotalBorrowValue` is `NaN` (the source multiplies
`new BigNumber(undefined)` into it), not a quantity dominated by the sentinel
maximum weight; only the conservative accumulator
`maxPriceUserTotalWeightedBorrow` carries the `U64_MAX`-weighted value. -/
theorem unsetBorrowWeight_counterexample :
    (formatObligation c4Ob c4Pool).toOption.map
        (fun r => (r.weightedTotalBorrowValue, r.maxPriceUserTotalWeightedBorrow)) =
      some (BN.nan, BN.fin ((2 ^ 64 - 1) * 10)) ∧
    BN.gte BN.nan (BN.fin ((2 ^ 64 - 1) * 10)) = false := by
  constructor
  · with_unfolding_all rfl
  · rfl

/-- C4 amended: for a borrow whose reserve has no configured `borrowWeight`,
the conservative accumulator contribution uses the `U64_MAX` sentinel weight
(so that conservative path is dominated by it), but the per-borrow
`weightedAmountUsd` — and hence `weightedTotalBorrowValue` — becomes `NaN`
rather than a sentinel-weighted value. -/
theorem unsetBorrowWeight_sentinel_conservative_only (pool : Pool) (b : BorrowPosition)
    (r : Reserve) (hfind : findReserve pool b.borrowReserve = some r)
    (hw : r.borrowWeight = none) :
    ∃ res, borrowEntry pool b = .ok res ∧
      res.maxPriceWeightedContrib =
        (res.record.amount.times (BN.fin r.maxPriceEff)).times (BN.fin U64_MAX) ∧
      res.record.weightedAmountUsd = BN.nan := by
  rw [borrowEntry, hfind]
  refine ⟨_, rfl, ?_, ?_⟩
  · simp [hw]
  · simp [hw, bnOfOpt, BN.nan_times]

/-- Witness for the C4 amended theorem at a concrete input. -/
theorem unsetBorrowWeight_sentinel_conservative_only_witness :
    (findReserve c4Pool "B" = some c4Reserve ∧ c4Reserve.borrowWeight = none) ∧
    ∃ res, borrowEntry c4Pool ⟨"B", 10 * 10 ^ 18, 10 ^ 18⟩ = .ok res ∧
      res.maxPriceWeightedContrib =
        (res.record.amount.times (BN.fin c4Reserve.maxPriceEff)).times (BN.fin U64_MAX) ∧
      res.record.weightedAmountUsd = BN.nan :=
  ⟨⟨by with_unfolding_all rfl, by decide⟩,
    unsetBorrowWeight_sentinel_conservative_only c4Pool ⟨"B", 10 * 10 ^ 18, 10 ^ 18⟩
      c4Reserve (by with_unfolding_all rfl) (by decide)⟩

/-! ### C6: a zero snapshot index silently yields Infinity, not an error -/

def c6Reserve : Reserve := ⟨"B", "B", 6, 1, none, none, 1, 1, 1/2, 3/4, some 1⟩

def c6Pool : Pool := ⟨[c6Reserve]⟩

def c6Ob : ObligationBundle := ⟨"ob", ⟨"mkt", [], [⟨"B", 50, 0⟩]⟩⟩

/-- C6 counterexample: a non-zero borrow whose stored snapshot index is zero is
not surfaced as an error: `formatObligation` returns `ok`, with
`totalBorrowValue` equal to the `Infinity` produced by the zero division. -/
theorem zeroSnapshotIndex_counterexample :
    (formatObligation c6Ob c6Pool).toOption.map (fun r => r.totalBorrowValue) =
      some (BN.inf true) := by
  with_unfolding_all rfl

/-- C6 amended: a zero snapshot index on a non-zero borrow is not checked:
`borrowEntry` succeeds, and the accrued amount is the `Infinity` of a
positive-by-zero BigNumber division, which propagates into the report instead
of an error being surfaced. -/
theorem zeroSnapshotIndex_yields_infinity (pool : Pool) (b : BorrowPosition) (r : Reserve)
    (hfind : findReserve pool b.borrowReserve = some r)
    (hz : b.cumulativeBorrowRateWads = 0)
    (hwads : 0 < b.borrowedAmountWads) (hrate : 0 < r.cumulativeBorrowRate) :
    ∃ res, borrowEntry pool b = .ok res ∧ res.record.amount = BN.inf true := by
  rw [borrowEntry, hfind]
  refine ⟨_, rfl, ?_⟩
  have hnum : 0 < (b.borrowedAmountWads : ℚ) / 10 ^ (18 + r.decimals) *
      r.cumulativeBorrowRate := by
    apply mul_pos _ hrate
    apply div_pos _ (by positivity)
    exact_mod_cast hwads
  have hden : ((b.cumulativeBorrowRateWads : ℚ) / 10 ^ 18) = 0 := by
    rw [hz]
    simp
  rw [hden]
  exact BN.div_fin_pos_zero hnum

/-- Witness for the C6 amended theorem at a concrete input. -/
theorem zeroSnapshotIndex_yields_infinity_witness :
    (findReserve c6Pool "B" = some c6Reserve ∧ (0:ℕ) = 0 ∧ (0:ℕ) < 50 ∧
      (0:ℚ) < c6Reserve.cumulativeBorrowRate) ∧
    ∃ res, borrowEntry c6Pool ⟨"B", 50, 0⟩ = .ok res ∧ res.record.amount = BN.inf true :=
  ⟨⟨by with_unfolding_all rfl, rfl, by decide, by decide⟩,
    zeroSnapshotIndex_yields_infinity c6Pool ⟨"B", 50, 0⟩ c6Reserve
      (by with_unfolding_all rfl) rfl (by decide) (by decide)⟩

/-! ### C9: monotonicity in a single deposit's amountUsd -/

def c9Ob : ObligationBundle := ⟨"ob", ⟨"mkt", [⟨"A", 5⟩], [⟨"B", 10 * 10 ^ 18, 10 ^ 18⟩]⟩⟩

def c9BorrowReserve : Reserve := ⟨"B", "B", 0, 1, none, none, 1, 1, 1/2, 3/4, some 1⟩

def c9PoolLow : Pool :=
  ⟨[⟨"A", "A", 0, 0, none, none, 1, 1, 1/2, 3/4, some 1⟩, c9BorrowReserve]⟩

def c9PoolHigh : Pool :=
  ⟨[⟨"A", "A", 0, 1, none, none, 1, 1, 1/2, 3/4, some 1⟩, c9BorrowReserve]⟩

def c9BorrowRecords : List BorrowRecord :=
  [⟨3/4, 1/2, "B", 1, "B", BN.fin 10, BN.fin 10, BN.fin 10⟩]

/-- C9 counterexample: raising the single deposit's `amountUsd` from 0 to 5,
with the borrow records identical in both runs, raises `borrowUtilization`
from 0 to 4: the zero-guard reports 0 while `borrowLimit` is 0, so utilization
can increase when the limit becomes positive against a non-zero debt. -/
theorem deposit_monotonicity_counterexample :
    (formatObligation c9Ob c9PoolLow).toOption.map
        (fun r => (r.deposits.map DepositRecord.amountUsd, r.borrows, r.borrowUtilization)) =
      some ([0], c9BorrowRecords, BN.fin 0) ∧
    (formatObligation c9Ob c9PoolHigh).toOption.map
        (fun r => (r.deposits.map DepositRecord.amountUsd, r.borrows, r.borrowUtilization)) =
      some ([5], c9BorrowRecords, BN.fin 4) ∧
    ¬ ((4:ℚ) ≤ 0) ∧ (0:ℚ) ≤ 5 := by
  refine ⟨?_, ?_, by decide, by decide⟩ <;> with_unfolding_all rfl

/-- C9 amended: increasing a single deposit's `amountUsd` (holding all other
deposit records and the total borrow value fixed, with non-negative position
values and loan-to-value ratios) never decreases `totalSupplyValue` or
`borrowLimit`, and never increases `borrowUtilization` provided the original
`borrowLimit` is non-zero — without that proviso the zero-guard breaks
monotonicity, as the counterexample shows. -/
theorem deposit_monotonicity_amended (l1 l2 : List DepositRecord) (d : DepositRecord)
    (a' tb : ℚ) (hle : d.amountUsd ≤ a')
    (hnn : ∀ x ∈ l1 ++ d :: l2, 0 ≤ x.amountUsd ∧ 0 ≤ x.loanToValueRatio)
    (htb : 0 ≤ tb) :
    totalSupplyValueOf (l1 ++ d :: l2) ≤
      totalSupplyValueOf (l1 ++ { d with amountUsd := a' } :: l2) ∧
    borrowLimitOf (l1 ++ d :: l2) ≤
      borrowLimitOf (l1 ++ { d with amountUsd := a' } :: l2) ∧
    (borrowLimitOf (l1 ++ d :: l2) ≠ 0 →
      ∃ u u' : ℚ,
        borrowUtilizationOf (l1 ++ d :: l2) (BN.fin tb) = BN.fin u ∧
        borrowUtilizationOf (l1 ++ { d with amountUsd := a' } :: l2) (BN.fin tb) =
          BN.fin u' ∧
        u' ≤ u) := by
  have hsplit : ∀ (f : DepositRecord → ℚ) (e : DepositRecord),
      ((l1 ++ e :: l2).map f).sum = (l1.map f).sum + (f e + (l2.map f).sum) := by
    intro f e
    simp
  have hltv : 0 ≤ d.loanToValueRatio :=
    (hnn d (List.mem_append_right l1 (List.mem_cons_self d l2))).2
  have h1 : totalSupplyValueOf (l1 ++ d :: l2) ≤
      totalSupplyValueOf (l1 ++ { d with amountUsd := a' } :: l2) := by
    rw [totalSupplyValueOf_eq, totalSupplyValueOf_eq, hsplit, hsplit]
    have : ({ d with amountUsd := a' } : DepositRecord).amountUsd = a' := rfl
    rw [this]
    linarith [hle]
  have h2 : borrowLimitOf (l1 ++ d :: l2) ≤
      borrowLimitOf (l1 ++ { d with amountUsd := a' } :: l2) := by
    rw [borrowLimitOf_eq, borrowLimitOf_eq, hsplit, hsplit]
    have hd' : ({ d with amountUsd := a' } : DepositRecord).amountUsd *
        ({ d with amountUsd := a' } : DepositRecord).loanToValueRatio =
        a' * d.loanToValueRatio := rfl
    rw [hd']
    have : d.amountUsd * d.loanToValueRatio ≤ a' * d.loanToValueRatio :=
      mul_le_mul_of_nonneg_right hle hltv
    linarith [this]
  refine ⟨h1, h2, ?_⟩
  intro hbl0
  have hblnn : 0 ≤ borrowLimitOf (l1 ++ d :: l2) := by
    rw [borrowLimitOf_eq]
    apply List.sum_nonneg
    intro q hq
    obtain ⟨x, hx, rfl⟩ := List.mem_map.mp hq
    exact mul_nonneg (hnn x hx).1 (hnn x hx).2
  have hblpos : 0 < borrowLimitOf (l1 ++ d :: l2) := lt_of_le_of_ne hblnn (Ne.symm hbl0)
  have hblpos' : 0 < borrowLimitOf (l1 ++ { d with amountUsd := a' } :: l2) :=
    lt_of_lt_of_le hblpos h2
  refine ⟨tb / borrowLimitOf (l1 ++ d :: l2),
    tb / borrowLimitOf (l1 ++ { d with amountUsd := a' } :: l2), ?_, ?_, ?_⟩
  · rw [borrowUtilizationOf, if_neg hbl0, BN.div_fin_fin hbl0]
  · rw [borrowUtilizationOf, if_neg hblpos'.ne', BN.div_fin_fin hblpos'.ne']
  · exact div_le_div_of_nonneg_left htb hblpos h2

def w9Record : DepositRecord := ⟨3/4, 1/2, "A", 1, "A", 4, 4⟩

/-- Witness for the C9 amended theorem at a concrete input: one deposit record
with `amountUsd` raised from 4 to 5 against a fixed total borrow value of 10;
utilization falls from 5 to 4. -/
theorem deposit_monotonicity_amended_witness :
    (w9Record.amountUsd ≤ 5 ∧
      (∀ x ∈ ([] : List DepositRecord) ++ w9Record :: [],
        0 ≤ x.amountUsd ∧ 0 ≤ x.loanToValueRatio) ∧ (0:ℚ) ≤ 10) ∧
    (totalSupplyValueOf ([] ++ w9Record :: []) ≤
      totalSupplyValueOf ([] ++ { w9Record with amountUsd := 5 } :: []) ∧
    borrowLimitOf ([] ++ w9Record :: []) ≤
      borrowLimitOf ([] ++ { w9Record with amountUsd := 5 } :: []) ∧
    (borrowLimitOf ([] ++ w9Record :: []) ≠ 0 →
      ∃ u u' : ℚ,
        borrowUtilizationOf ([] ++ w9Record :: []) (BN.fin 10) = BN.fin u ∧
        borrowUtilizationOf ([] ++ { w9Record with amountUsd := 5 } :: []) (BN.fin 10) =
          BN.fin u' ∧
        u' ≤ u)) :=
  ⟨⟨by norm_num [w9Record], by norm_num [w9Record], by norm_num⟩,
    deposit_monotonicity_amended [] [] w9Record 5 10 (by norm_num [w9Record])
      (by norm_num [w9Record]) (by norm_num)⟩

/-! ### C10: the borrow limit never exceeds the liquidation threshold value -/

theorem depositEntry_ok_inv {pool : Pool} {d : DepositPosition} {res : DepositResult}
    (h : depositEntry pool d = .ok res) :
    ∃ r, findReserve pool d.depositReserve = some r ∧
      res.record.loanToValueRatio = r.loanToValueRatio ∧
      res.record.liquidationThreshold = r.liquidationThreshold := by
  unfold depositEntry at h
  cases hf : findReserve pool d.depositReserve with
  | none => rw [hf] at h; cases h
  | some r =>
    rw [hf] at h
    cases h
    exact ⟨r, rfl, rfl, rfl⟩

/-- C10: whenever each reserve referenced by the obligation's positions
satisfies `loanToValueRatio ≤ liquidationThreshold` and all deposit
`amountUsd` values of the report are non-negative, the aggregate
`borrowLimit` never exceeds the aggregate `liquidationThreshold` value of the
report. -/
theorem borrowLimit_le_liquidationThreshold (ob : ObligationBundle) (pool : Pool)
    (res : FormattedObligation) (hok : formatObligation ob pool = .ok res)
    (hresd : ∀ d ∈ ob.info.deposits, ∀ r, findReserve pool d.depositReserve = some r →
        r.loanToValueRatio ≤ r.liquidationThreshold)
    (hresb : ∀ b ∈ ob.info.borrows, ∀ r, findReserve pool b.borrowReserve = some r →
        r.loanToValueRatio ≤ r.liquidationThreshold)
    (hnn : ∀ d ∈ res.deposits, 0 ≤ d.amountUsd) :
    res.borrowLimit ≤ res.liquidationThreshold := by
  obtain ⟨dr, br, hdr, -, rfl⟩ := formatObligation_ok_iff.mp hok
  have hbl : (buildReport ob dr br).borrowLimit =
      borrowLimitOf (dr.map DepositResult.record) := rfl
  have hlt : (buildReport ob dr br).liquidationThreshold =
      liquidationThresholdOf (dr.map DepositResult.record) := rfl
  rw [hbl, hlt, borrowLimitOf_eq, liquidationThresholdOf_eq]
  apply List.sum_le_sum
  intro x hx
  have hx0 : 0 ≤ x.amountUsd := hnn x hx
  obtain ⟨y, hy, rfl⟩ := List.mem_map.mp hx
  obtain ⟨dpos, hdpos, hde⟩ := mapM_ok_mem hdr y hy
  obtain ⟨r, hfind, hltv, hliq⟩ := depositEntry_ok_inv hde
  rw [hltv, hliq]
  exact mul_le_mul_of_nonneg_left
    (hresd dpos (List.mem_filter.mp hdpos).1 r hfind) hx0

def w10Reserve : Reserve := ⟨"A", "A", 0, 2, none, none, 1, 1, 1/2, 3/4, some 1⟩

def w10Pool : Pool := ⟨[w10Reserve]⟩

def w10Ob : ObligationBundle := ⟨"ob", ⟨"mkt", [⟨"A", 4⟩], []⟩⟩

def w10DepResults : List DepositResult := [⟨⟨3/4, 1/2, "A", 2, "A", 4, 8⟩, 8, 4⟩]

def w10Res : FormattedObligation := buildReport w10Ob w10DepResults []

/-- Witness for C10 at a concrete input: `borrowLimit = 4` against a
liquidation-threshold value of 6. -/
theorem borrowLimit_le_liquidationThreshold_witness :
    (formatObligation w10Ob w10Pool = .ok w10Res ∧
      (∀ d ∈ w10Ob.info.deposits, ∀ r, findReserve w10Pool d.depositReserve = some r →
        r.loanToValueRatio ≤ r.liquidationThreshold) ∧
      (∀ b ∈ w10Ob.info.borrows, ∀ r, findReserve w10Pool b.borrowReserve = some r →
        r.loanToValueRatio ≤ r.liquidationThreshold) ∧
      (∀ d ∈ w10Res.deposits, 0 ≤ d.amountUsd)) ∧
    w10Res.borrowLimit ≤ w10Res.liquidationThreshold :=
  ⟨⟨by with_unfolding_all rfl,
      by
        intro d hd r hr
        have hd' : d = (⟨"A", 4⟩ : DepositPosition) := by simpa [w10Ob] using hd
        subst hd'
        have h1 : findReserve w10Pool (⟨"A", 4⟩ : DepositPosition).depositReserve =
            some w10Reserve := by with_unfolding_all rfl
        rw [h1] at hr
        injection hr with h2
        subst h2
        norm_num [w10Reserve],
      by intro b hb r hr; simp [w10Ob] at hb,
      by norm_num [w10Res, buildReport, w10DepResults]⟩,
    borrowLimit_le_liquidationThreshold w10Ob w10Pool w10Res
      (by with_unfolding_all rfl)
      (by
        intro d hd r hr
        have hd' : d = (⟨"A", 4⟩ : DepositPosition) := by simpa [w10Ob] using hd
        subst hd'
        have h1 : findReserve w10Pool (⟨"A", 4⟩ : DepositPosition).depositReserve =
            some w10Reserve := by with_unfolding_all rfl
        rw [h1] at hr
        injection hr with h2
        subst h2
        norm_num [w10Reserve])
      (by intro b hb r hr; simp [w10Ob] at hb)
      (by norm_num [w10Res, buildReport, w10DepResults])⟩

end Solend
